import Mathlib

/-!
Shallow embedding of `src/fetch_pubmed.py` (a PubMed search / fetch / extract /
report pipeline), together with theorems checking the natural-language
specification against it.

The parsed XML tree produced by `xmltodict.parse` is modelled by a fixed schema
of structures with optional fields, mirroring exactly the keys the Python code
accesses.  The "single node vs list of nodes" ambiguity of `xmltodict` output
(a singleton XML collection is a dict, not a list) is modelled by `NodeOrList`.
Python exceptions raised while processing one article (`KeyError` on a missing
field, `IndexError` on `"".split()[0]`) are modelled by `Except String`.
HTTP effects are modelled by passing the response as an oracle function and
recording how many requests were issued; console / file output is modelled as a
list of `OutputAction`s.
-/

namespace FetchPubmed

/-- The `xmltodict` library collapses singleton collections: a child element occurring once
parses as a single node, occurring several times as a list.  The Python code
coerces with `if not isinstance(x, list): x = [x]`. -/
inductive NodeOrList (α : Type) where
  | single : α → NodeOrList α
  | list : List α → NodeOrList α
deriving DecidableEq

/-- The Python coercion `if not isinstance(x, list): x = [x]`. -/
def NodeOrList.toList {α : Type} : NodeOrList α → List α
  | .single a => [a]
  | .list l => l

/-- Python's `s.lower()` (ASCII case folding, as used by the keywords and
affiliations at hand). -/
def strLower (s : String) : String :=
  String.mk (s.data.map Char.toLower)

/-- Python's `s.strip()`: remove leading and trailing whitespace. -/
def pyStrip (s : String) : String :=
  String.mk (((s.data.dropWhile Char.isWhitespace).reverse.dropWhile
    Char.isWhitespace).reverse)

/-- Helper for `pySplit`: scan the characters, accumulating the current token
reversed, emitting it at each whitespace run boundary. -/
def splitWsAux : List Char → List Char → List String
  | [], acc => if acc.isEmpty then [] else [String.mk acc.reverse]
  | c :: cs, acc =>
    if c.isWhitespace then
      if acc.isEmpty then splitWsAux cs []
      else String.mk acc.reverse :: splitWsAux cs []
    else splitWsAux cs (c :: acc)

/-- Python's `s.split()`: split on whitespace runs, dropping empty tokens
(so `"".split() = []` and `"  ".split() = []`). -/
def pySplit (s : String) : List String :=
  splitWsAux s.data []

/-- Python's `sep.join(xs)`. -/
def pyJoin (sep : String) : List String → String
  | [] => ""
  | [s] => s
  | s :: rest => s ++ sep ++ pyJoin sep rest

/-- Python's `sub in s` substring containment test. -/
def containsSub (s sub : String) : Bool :=
  decide (List.IsInfix sub.data s.data)

/-- The module-level constant `COMPANY_KEYWORDS`. -/
def COMPANY_KEYWORDS : List String :=
  ["Pharmaceutical", "Biotech", "Biotechnology", "Therapeutics", "Pharma",
   "BioPharma", "Life Sciences", "Biosciences", "Drug Development",
   "Medicines", "Inc.", "Ltd.", "Corp.", "GmbH", "S.A.", "S.p.A.", "LLC"]

/-- The test on line 119:
`any(keyword.lower() in affiliation.lower() for keyword in COMPANY_KEYWORDS)`. -/
def affiliationMatches (affiliation : String) : Bool :=
  COMPANY_KEYWORDS.any (fun keyword =>
    containsSub (strLower affiliation) (strLower keyword))

/-- An `AffiliationInfo` node; the code reads `affiliation_info.get("Affiliation", "")`. -/
structure AffiliationInfo where
  affiliation : Option String := none
deriving DecidableEq

/-- An `Author` node: optional `ForeName` / `LastName`, and the
`AffiliationInfo` child which may be absent, a single node, or a list. -/
structure Author where
  foreName : Option String := none
  lastName : Option String := none
  affiliationInfo : Option (NodeOrList AffiliationInfo) := none
deriving DecidableEq

/-- An `AuthorList` node; the code reads `author_list.get("Author", [])`. -/
structure AuthorList where
  author : Option (NodeOrList Author) := none
deriving DecidableEq

/-- The `PubDate` node with its optional `Year` and `MedlineDate` fields. -/
structure PubDate where
  year : Option String := none
  medlineDate : Option String := none
deriving DecidableEq

/-- The `JournalIssue` node. -/
structure JournalIssue where
  pubDate : Option PubDate := none
deriving DecidableEq

/-- The `Journal` node. -/
structure Journal where
  journalIssue : Option JournalIssue := none
deriving DecidableEq

/-- The `Article` node inside `MedlineCitation`. -/
structure ArticleInfo where
  articleTitle : Option String := none
  journal : Option Journal := none
  authorList : Option AuthorList := none
deriving DecidableEq

/-- The `PMID` node; the code reads `["PMID"]["#text"]`, raising when either
level is missing or not a dict. -/
structure PMIDNode where
  text : Option String := none
deriving DecidableEq

/-- The `MedlineCitation` node; `["PMID"]` and `["Article"]` raise when absent. -/
structure MedlineCitation where
  pmid : Option PMIDNode := none
  article : Option ArticleInfo := none
deriving DecidableEq

/-- One `PubmedArticle` node; `["MedlineCitation"]` raises when absent. -/
structure PubmedArticle where
  medlineCitation : Option MedlineCitation := none
deriving DecidableEq

/-- The `PubmedArticleSet` node; the code reads
`.get("PubmedArticle", [])` with a list default. -/
structure PubmedArticleSet where
  pubmedArticle : Option (NodeOrList PubmedArticle) := none
deriving DecidableEq

/-- The whole parsed XML document: `data_dict.get("PubmedArticleSet", {})`. -/
structure ParsedXml where
  pubmedArticleSet : Option PubmedArticleSet := none
deriving DecidableEq

/-- One output record appended to `papers` (lines 125-131). -/
structure Paper where
  pmid : String
  title : String
  publicationDate : String
  nonAcademicAuthors : String
  correspondingAuthorEmail : String
deriving DecidableEq

/-- Lines 76-78: fetch the article collection and coerce a single node to a
singleton list. -/
def articlesFrom (d : ParsedXml) : List PubmedArticle :=
  match (d.pubmedArticleSet.getD {}).pubmedArticle with
  | none => []
  | some x => x.toList

/-- Lines 90-96 resolve `pub_date_info` by a chain of `.get(_, {})` defaults. -/
def pubDateFrom (info : ArticleInfo) : PubDate :=
  (((info.journal.getD {}).journalIssue.getD {}).pubDate.getD {})

/-- Lines 91-96: tiered publication-date fallback.  `split()[0]` on an empty
split result raises `IndexError`, modelled as `Except.error`. -/
def resolveDate (pd : PubDate) : Except String String :=
  match pd.year with
  | some y => Except.ok y
  | none =>
    match pd.medlineDate with
    | some md =>
      match pySplit md with
      | [] => Except.error "IndexError: list index out of range"
      | t :: _ => Except.ok t
    | none => Except.ok "Unknown Date"

/-- Lines 99-105: `author_list = article_info.get("AuthorList", {})`, then the
truthiness test and the single-vs-list coercion of `Author`.  An absent or
falsy (empty) `AuthorList` yields no authors. -/
def authorsFrom (authorList : Option AuthorList) : List Author :=
  match authorList with
  | some al =>
    match al.author with
    | some x => x.toList
    | none => []
  | none => []

/-- Line 115: `f"{author.get('ForeName', '')} {author.get('LastName', '')}".strip()`. -/
def authorName (author : Author) : String :=
  pyStrip ((author.foreName.getD "") ++ " " ++ (author.lastName.getD ""))

/-- Lines 117-121: scan the author's affiliation-info nodes in order and return
the first affiliation string matching a company keyword (the loop `break`s on
the first match). -/
def findMatch : List AffiliationInfo → Option String
  | [] => none
  | ai :: rest =>
    let affiliation := ai.affiliation.getD ""
    if affiliationMatches affiliation then some affiliation else findMatch rest

/-- Lines 109-121, one author: when the author has an `AffiliationInfo` key,
coerce it to a list and record `"name (affiliation)"` for the first matching
affiliation, if any. -/
def processAuthor (author : Author) : Option String :=
  match author.affiliationInfo with
  | none => none
  | some affs =>
    (findMatch affs.toList).map
      (fun affiliation => authorName author ++ " (" ++ affiliation ++ ")")

/-- Lines 84-131, the body of the per-article `try`: extract PMID, title and
date, collect non-academic authors, and emit a record when at least one author
matched.  A Python exception is `Except.error`; a processed article with no
non-academic authors is `Except.ok none`. -/
def processArticle (article : PubmedArticle) : Except String (Option Paper) :=
  match article.medlineCitation with
  | none => Except.error "KeyError: MedlineCitation"
  | some mc =>
    match mc.pmid with
    | none => Except.error "KeyError: PMID"
    | some pmidNode =>
      match pmidNode.text with
      | none => Except.error "KeyError: #text"
      | some pmid =>
        match mc.article with
        | none => Except.error "KeyError: Article"
        | some info =>
          let title := info.articleTitle.getD "No Title"
          match resolveDate (pubDateFrom info) with
          | Except.error e => Except.error e
          | Except.ok pub_date =>
            let authors := authorsFrom info.authorList
            let non_academic_authors := authors.filterMap processAuthor
            if non_academic_authors.isEmpty then Except.ok none
            else Except.ok (some
              { pmid := pmid
                title := title
                publicationDate := pub_date
                nonAcademicAuthors := pyJoin "; " non_academic_authors
                correspondingAuthorEmail := "Not Available" })

/-- Lines 67-144, `extract_paper_data`: process every article, skipping any
article whose processing raised (`except ... continue`), keeping input order. -/
def extract_paper_data (d : ParsedXml) : List Paper :=
  (articlesFrom d).filterMap (fun article =>
    match processArticle article with
    | Except.ok p => p
    | Except.error _ => none)

/-- An HTTP response as seen by the code: status code and body text. -/
structure HttpResponse where
  statusCode : Nat
  text : String

/-- Lines 41-65, `fetch_paper_details`: on an empty id list return `None`
without issuing a request; otherwise issue one GET with the ids joined by
commas and return the body on status 200, `None` otherwise.  The HTTP layer is
an oracle `http` from the joined id parameter to the response; the second
component counts requests issued. -/
def fetch_paper_details (pmids : List String) (http : String → HttpResponse) :
    Option String × Nat :=
  if pmids.isEmpty then (none, 0)
  else
    let response := http (pyJoin "," pmids)
    if response.statusCode = 200 then (some response.text, 1)
    else (none, 1)

/-- An observable output effect of the reporting stage: writing the CSV file
(`df.to_csv`) or printing one line. -/
inductive OutputAction where
  | writeFile (filename : String) (papers : List Paper)
  | printLine (line : String)
deriving DecidableEq

/-- Lines 146-150, `save_to_csv`: write the records to `filename` and confirm. -/
def save_to_csv (papers : List Paper) (filename : String) : List OutputAction :=
  [OutputAction.writeFile filename papers,
   OutputAction.printLine ("\nResults saved to " ++ filename)]

/-- Lines 181-192 of `main`: the reporting branch after extraction.  `if papers:`
dispatches on emptiness; with a file argument the records are saved to CSV,
otherwise printed to the console; with no records only the informational
message is printed. -/
def report_papers (papers : List Paper) (file : Option String) : List OutputAction :=
  if !papers.isEmpty then
    match file with
    | some f =>
      save_to_csv papers f ++
        [OutputAction.printLine
          ("\nSaved " ++ toString papers.length ++
            " papers with non-academic authors to " ++ f)]
    | none =>
      OutputAction.printLine "\nExtracted Papers:" ::
        (papers.map (fun paper =>
          [OutputAction.printLine
            ("PMID: " ++ paper.pmid ++ ", Title: " ++ paper.title ++
              ", Date: " ++ paper.publicationDate),
           OutputAction.printLine ("Non-Academic Authors: " ++ paper.nonAcademicAuthors),
           OutputAction.printLine
            ("Corresponding Email: " ++ paper.correspondingAuthorEmail ++ "\n")])).flatten
  else
    [OutputAction.printLine "No papers found with non-academic authors."]

/-- Spec-side predicate, following the spec's words: the list of affiliation
strings attached to an author (empty when the author has no affiliation info). -/
def affiliationStringsOf (author : Author) : List String :=
  match author.affiliationInfo with
  | none => []
  | some affs => affs.toList.map (fun ai => ai.affiliation.getD "")

/-- Spec-side predicate, following the spec's words: the authors of an article
(empty when any enclosing field is absent). -/
def authorsOfArticle (article : PubmedArticle) : List Author :=
  authorsFrom ((article.medlineCitation.getD {}).article.getD {}).authorList

/-- Spec-side predicate, following the spec's words: at least one of the
article's authors has at least one affiliation string that case-insensitively
contains a keyword from the fixed list. -/
def specArticleHasNonAcademicAuthor (article : PubmedArticle) : Bool :=
  (authorsOfArticle article).any (fun author =>
    (affiliationStringsOf author).any affiliationMatches)

/-- A parsed document whose `PubmedArticle` entry is a single (non-list) node,
as `xmltodict` produces for a one-article response. -/
def singletonDoc (a : PubmedArticle) : ParsedXml :=
  { pubmedArticleSet := some { pubmedArticle := some (NodeOrList.single a) } }

/-- A parsed document whose `PubmedArticle` entry is a list of nodes, as
`xmltodict` produces for a multi-article response. -/
def listDoc (l : List PubmedArticle) : ParsedXml :=
  { pubmedArticleSet := some { pubmedArticle := some (NodeOrList.list l) } }

/-! Concrete example nodes used to instantiate the theorems below. -/

/-- An affiliation-info node carrying an industry affiliation. -/
def exAffiliation : AffiliationInfo := { affiliation := some "Acme Pharma Inc." }

/-- An author with a single (industry) affiliation-info node. -/
def exAuthor : Author :=
  { foreName := some "John", lastName := some "Doe",
    affiliationInfo := some (NodeOrList.single exAffiliation) }

/-- An affiliation-info node carrying an academic affiliation. -/
def exUnivAffiliation : AffiliationInfo := { affiliation := some "University X" }

/-- An author with a university affiliation first and an industry one second. -/
def exAuthorTwo : Author :=
  { foreName := some "Ann", lastName := some "Lee",
    affiliationInfo := some (NodeOrList.list [exUnivAffiliation, exAffiliation]) }

/-- A complete `Article` node with a `Year` publication date. -/
def exInfo : ArticleInfo :=
  { articleTitle := some "A Study",
    journal := some { journalIssue := some { pubDate := some { year := some "2021" } } },
    authorList := some { author := some (NodeOrList.single exAuthor) } }

/-- A well-formed article that yields `exPaper`. -/
def exArticle : PubmedArticle :=
  { medlineCitation := some { pmid := some { text := some "12345" }, article := some exInfo } }

/-- A document whose article collection is the single node `exArticle`. -/
def exParsed : ParsedXml :=
  { pubmedArticleSet := some { pubmedArticle := some (NodeOrList.single exArticle) } }

/-- The record `extract_paper_data` emits for `exArticle`. -/
def exPaper : Paper :=
  { pmid := "12345", title := "A Study", publicationDate := "2021",
    nonAcademicAuthors := "John Doe (Acme Pharma Inc.)",
    correspondingAuthorEmail := "Not Available" }

/-- An article whose `MedlineCitation` lacks the `PMID` key (so line 85
raises `KeyError`) but whose author has an industry affiliation. -/
def exNoPmid : PubmedArticle :=
  { medlineCitation := some { pmid := none, article := some exInfo } }

/-- A document whose only article is `exNoPmid`. -/
def exNoPmidParsed : ParsedXml :=
  { pubmedArticleSet := some { pubmedArticle := some (NodeOrList.single exNoPmid) } }

/-- An article with no `MedlineCitation` key at all: processing it raises. -/
def exNoMC : PubmedArticle := { medlineCitation := none }

/-- An article whose `PubDate` has no `Year` and a whitespace-only
`MedlineDate`, and whose author has an industry affiliation. -/
def exBadDateInfo : ArticleInfo :=
  { articleTitle := some "T",
    journal := some { journalIssue := some { pubDate := some { year := none, medlineDate := some " " } } },
    authorList := some { author := some (NodeOrList.single exAuthor) } }

/-- See `exBadDate`. -/
def exBadDateCitation : MedlineCitation :=
  { pmid := some { text := some "99" }, article := some exBadDateInfo }

/-- The article wrapping `exBadDateInfo`. -/
def exBadDate : PubmedArticle :=
  { medlineCitation := some exBadDateCitation }

/-! Helper lemmas shared by the claim theorems. -/

/-- Function `findMatch` returns the affiliation string of the first matching
affiliation-info node, i.e. of `List.find?` on the match predicate. -/
lemma findMatch_eq_find (l : List AffiliationInfo) :
    findMatch l =
      (l.find? (fun ai => affiliationMatches (ai.affiliation.getD ""))).map
        (fun ai => ai.affiliation.getD "") := by
  induction l with
  | nil => rfl
  | cons ai rest ih =>
    unfold findMatch
    by_cases h : affiliationMatches (ai.affiliation.getD "") = true
    · simp [h, List.find?_cons_of_pos]
    · simp only [Bool.not_eq_true] at h
      simp [h, List.find?_cons_of_neg, ih]

/-- For any `f : α → Option β`, some element of `l` maps to `some` exactly when
the `filterMap` is nonempty. -/
lemma any_isSome_eq_filterMap_nonempty {α β : Type} (f : α → Option β) (l : List α) :
    l.any (fun x => (f x).isSome) = !((l.filterMap f).isEmpty) := by
  induction l with
  | nil => rfl
  | cons x rest ih => cases hfx : f x <;> simp [List.filterMap_cons, hfx, ih]

/-- Function `findMatch` succeeds exactly when some affiliation string in the list
matches a keyword. -/
lemma findMatch_isSome_eq (l : List AffiliationInfo) :
    (findMatch l).isSome =
      (l.map (fun ai => ai.affiliation.getD "")).any affiliationMatches := by
  induction l with
  | nil => rfl
  | cons ai rest ih =>
    unfold findMatch
    by_cases h : affiliationMatches (ai.affiliation.getD "") = true
    · simp [h]
    · simp only [Bool.not_eq_true] at h
      simp [h, ih]

/-- Function `processAuthor` produces a string exactly when one of the author's
affiliation strings matches a keyword. -/
lemma processAuthor_isSome_eq (au : Author) :
    (processAuthor au).isSome = (affiliationStringsOf au).any affiliationMatches := by
  cases h : au.affiliationInfo with
  | none => simp [processAuthor, affiliationStringsOf, h]
  | some affs =>
    simp only [processAuthor, affiliationStringsOf, h]
    rw [← findMatch_isSome_eq]
    cases hm : findMatch affs.toList <;> simp [hm]

/-- The spec-side "article has a non-academic author" predicate agrees with
the nonemptiness of the code's `non_academic_authors` list. -/
lemma spec_match_eq_filterMap (a : PubmedArticle) (mc : MedlineCitation)
    (info : ArticleInfo) (h1 : a.medlineCitation = some mc) (h2 : mc.article = some info) :
    specArticleHasNonAcademicAuthor a =
      !(((authorsFrom info.authorList).filterMap processAuthor).isEmpty) := by
  unfold specArticleHasNonAcademicAuthor authorsOfArticle
  rw [h1]
  simp only [Option.getD_some]
  rw [h2]
  simp only [Option.getD_some]
  rw [← any_isSome_eq_filterMap_nonempty]
  congr 1
  funext au
  exact (processAuthor_isSome_eq au).symm

/-- When per-article processing completes without an exception, the spec-side
match predicate agrees with whether a record was emitted. -/
lemma processArticle_ok_spec (a : PubmedArticle) (r : Option Paper)
    (h : processArticle a = Except.ok r) :
    specArticleHasNonAcademicAuthor a = r.isSome := by
  cases hmc : a.medlineCitation with
  | none => simp [processArticle, hmc] at h
  | some mc =>
    cases hpm : mc.pmid with
    | none => simp [processArticle, hmc, hpm] at h
    | some pmidNode =>
      cases htx : pmidNode.text with
      | none => simp [processArticle, hmc, hpm, htx] at h
      | some pmid =>
        cases hart : mc.article with
        | none => simp [processArticle, hmc, hpm, htx, hart] at h
        | some info =>
          cases hrd : resolveDate (pubDateFrom info) with
          | error e => simp [processArticle, hmc, hpm, htx, hart, hrd] at h
          | ok pub_date =>
            rw [spec_match_eq_filterMap a mc info hmc hart]
            simp only [processArticle, hmc, hpm, htx, hart, hrd] at h
            cases hne : ((authorsFrom info.authorList).filterMap processAuthor).isEmpty with
            | true =>
              rw [hne] at h
              simp at h
              simp [← h]
            | false =>
              rw [hne] at h
              simp at h
              simp [← h]

/-- Every record emitted for an article carries the placeholder email, and its
publication date is the one resolved by the tiered fallback. -/
lemma processArticle_ok_some_fields (a : PubmedArticle) (p : Paper)
    (h : processArticle a = Except.ok (some p)) :
    p.correspondingAuthorEmail = "Not Available" ∧
    ∃ mc info, a.medlineCitation = some mc ∧ mc.article = some info ∧
      resolveDate (pubDateFrom info) = Except.ok p.publicationDate := by
  cases hmc : a.medlineCitation with
  | none => simp [processArticle, hmc] at h
  | some mc =>
    cases hpm : mc.pmid with
    | none => simp [processArticle, hmc, hpm] at h
    | some pmidNode =>
      cases htx : pmidNode.text with
      | none => simp [processArticle, hmc, hpm, htx] at h
      | some pmid =>
        cases hart : mc.article with
        | none => simp [processArticle, hmc, hpm, htx, hart] at h
        | some info =>
          cases hrd : resolveDate (pubDateFrom info) with
          | error e => simp [processArticle, hmc, hpm, htx, hart, hrd] at h
          | ok pub_date =>
            simp only [processArticle, hmc, hpm, htx, hart, hrd] at h
            cases hne : ((authorsFrom info.authorList).filterMap processAuthor).isEmpty with
            | true =>
              rw [hne] at h
              simp at h
            | false =>
              rw [hne] at h
              simp at h
              refine ⟨?_, mc, info, rfl, hart, ?_⟩
              · rw [← h]
              · rw [← h, hrd]

/-- Membership in the extraction output comes exactly from an input article
whose processing emitted that record. -/
lemma mem_extract_iff (d : ParsedXml) (p : Paper) :
    p ∈ extract_paper_data d ↔
      ∃ a, a ∈ articlesFrom d ∧ processArticle a = Except.ok (some p) := by
  unfold extract_paper_data
  rw [List.mem_filterMap]
  constructor
  · rintro ⟨a, ha, hfa⟩
    refine ⟨a, ha, ?_⟩
    cases hpa : processArticle a with
    | error e => rw [hpa] at hfa; simp at hfa
    | ok r =>
      rw [hpa] at hfa
      simp at hfa
      rw [hfa]
  · rintro ⟨a, ha, hpa⟩
    exact ⟨a, ha, by rw [hpa]⟩

/-! The claim theorems. -/

/-- C2: the publication date is resolved by tiered fallback: a present `Year`
field wins; otherwise the first whitespace-delimited token of `MedlineDate` is
used; otherwise the sentinel "Unknown Date".  The last conjunct ties the
resolved date to the `publicationDate` field of any record `processArticle`
emits. -/
theorem publication_date_tiered_fallback :
    (∀ (pd : PubDate) (y : String), pd.year = some y → resolveDate pd = Except.ok y) ∧
    (∀ (pd : PubDate) (md t : String) (ts : List String), pd.year = none →
      pd.medlineDate = some md → pySplit md = t :: ts → resolveDate pd = Except.ok t) ∧
    (∀ pd : PubDate, pd.year = none → pd.medlineDate = none →
      resolveDate pd = Except.ok "Unknown Date") ∧
    (∀ (a : PubmedArticle) (mc : MedlineCitation) (info : ArticleInfo) (p : Paper),
      a.medlineCitation = some mc → mc.article = some info →
      processArticle a = Except.ok (some p) →
      resolveDate (pubDateFrom info) = Except.ok p.publicationDate) := by
  refine ⟨?_, ?_, ?_, ?_⟩
  · intro pd y h
    simp [resolveDate, h]
  · intro pd md t ts h1 h2 h3
    simp [resolveDate, h1, h2, h3]
  · intro pd h1 h2
    simp [resolveDate, h1, h2]
  · intro a mc info p h1 h2 h3
    obtain ⟨-, mc', info', hmc, hart, hdate⟩ := processArticle_ok_some_fields a p h3
    rw [h1] at hmc
    cases hmc
    rw [h2] at hart
    cases hart
    exact hdate

/-- C2 witness: the three tiers at concrete dates ("2020 Jan-Feb" yields
"2020"), and the date field of the record emitted for `exArticle`. -/
theorem publication_date_tiered_fallback_witness :
    resolveDate { year := some "2021" } = Except.ok "2021" ∧
    resolveDate { medlineDate := some "2020 Jan-Feb" } = Except.ok "2020" ∧
    resolveDate {} = Except.ok "Unknown Date" ∧
    resolveDate (pubDateFrom exInfo) = Except.ok exPaper.publicationDate := by
  refine ⟨?_, ?_, ?_, ?_⟩
  · exact publication_date_tiered_fallback.1 _ "2021" rfl
  · exact publication_date_tiered_fallback.2.1 _ "2020 Jan-Feb" "2020" ["Jan-Feb"]
      rfl rfl (by decide)
  · exact publication_date_tiered_fallback.2.2.1 _ rfl rfl
  · exact publication_date_tiered_fallback.2.2.2 exArticle _ _ exPaper rfl rfl (by rfl)

/-- C3: for an author whose affiliation-info list has a first matching node
`ai` (in list order), exactly one formatted string is recorded, namely
"name (affiliation)" built from that first matching affiliation. -/
theorem author_first_matching_affiliation :
    ∀ (au : Author) (affs : NodeOrList AffiliationInfo) (ai : AffiliationInfo),
      au.affiliationInfo = some affs →
      affs.toList.find? (fun x => affiliationMatches (x.affiliation.getD "")) = some ai →
      processAuthor au = some (authorName au ++ " (" ++ (ai.affiliation.getD "") ++ ")") := by
  intro au affs ai h1 h2
  simp only [processAuthor, h1]
  rw [findMatch_eq_find, h2]
  rfl

/-- C3 witness: the author with affiliations ["University X",
"Acme Pharma Inc."] yields exactly the one string derived from
"Acme Pharma Inc.". -/
theorem author_first_matching_affiliation_witness :
    processAuthor exAuthorTwo = some "Ann Lee (Acme Pharma Inc.)" := by
  have h := author_first_matching_affiliation exAuthorTwo
    (NodeOrList.list [exUnivAffiliation, exAffiliation]) exAffiliation rfl (by decide)
  exact h.trans (by decide)

/-- C4: a blob whose article collection is a single node extracts identically
to a batch of one, and the same single-vs-list coercion holds for a single
author node and a single affiliation-info node. -/
theorem single_node_coercion_eq_singleton_batch :
    (∀ a : PubmedArticle,
      extract_paper_data
        { pubmedArticleSet := some { pubmedArticle := some (NodeOrList.single a) } } =
      extract_paper_data
        { pubmedArticleSet := some { pubmedArticle := some (NodeOrList.list [a]) } }) ∧
    (∀ au : Author,
      authorsFrom (some { author := some (NodeOrList.single au) }) =
      authorsFrom (some { author := some (NodeOrList.list [au]) })) ∧
    (∀ (au : Author) (ai : AffiliationInfo),
      processAuthor { au with affiliationInfo := some (NodeOrList.single ai) } =
      processAuthor { au with affiliationInfo := some (NodeOrList.list [ai]) }) :=
  ⟨fun _ => rfl, fun _ => rfl, fun _ _ => rfl⟩

/-- C5: on an empty identifier list, `fetch_paper_details` returns `None`
and issues zero HTTP requests, whatever the HTTP layer would answer. -/
theorem fetch_paper_details_empty_ids :
    ∀ http : String → HttpResponse, fetch_paper_details [] http = (none, 0) :=
  fun _ => rfl

/-- C6: an article whose processing raises is skipped and only that article:
extraction of a batch containing it equals extraction of the batch with it
removed, the surviving records keeping input order. -/
theorem article_error_skipped_preserves_others :
    ∀ (xs ys : List PubmedArticle) (a : PubmedArticle) (e : String),
      processArticle a = Except.error e →
      extract_paper_data (listDoc (xs ++ a :: ys)) =
        extract_paper_data (listDoc (xs ++ ys)) := by
  intro xs ys a e h
  simp [extract_paper_data, articlesFrom, listDoc, NodeOrList.toList,
    List.filterMap_append, List.filterMap_cons, h]

/-- C6 witness: a batch of a good article followed by an article without a
`MedlineCitation` extracts the same as the batch of the good article alone. -/
theorem article_error_skipped_preserves_others_witness :
    extract_paper_data (listDoc [exArticle, exNoMC]) =
      extract_paper_data (listDoc [exArticle]) :=
  article_error_skipped_preserves_others [exArticle] [] exNoMC
    "KeyError: MedlineCitation" rfl

/-- C7: when extraction produced zero qualifying articles and a file path was
provided, the reporting stage only prints the informational message and never
writes a file. -/
theorem no_papers_no_file_written :
    ∀ (d : ParsedXml) (f : String), extract_paper_data d = [] →
      report_papers (extract_paper_data d) (some f) =
        [OutputAction.printLine "No papers found with non-academic authors."] ∧
      ∀ (fn : String) (ps : List Paper),
        OutputAction.writeFile fn ps ∉ report_papers (extract_paper_data d) (some f) := by
  intro d f h
  rw [h]
  refine ⟨rfl, ?_⟩
  intro fn ps hmem
  simp [report_papers] at hmem

/-- C7 witness: an empty document extracts to zero records, and reporting them
to "results.csv" prints only the message and writes nothing. -/
theorem no_papers_no_file_written_witness :
    report_papers (extract_paper_data {}) (some "results.csv") =
      [OutputAction.printLine "No papers found with non-academic authors."] ∧
    OutputAction.writeFile "results.csv" [] ∉
      report_papers (extract_paper_data {}) (some "results.csv") := by
  have h := no_papers_no_file_written {} "results.csv" rfl
  exact ⟨h.1, h.2 "results.csv" []⟩

/-- C8: keyword classification is invariant under letter case: affiliation
strings equal up to lower-casing classify identically. -/
theorem keyword_matching_case_insensitive :
    ∀ s t : String, strLower s = strLower t →
      affiliationMatches s = affiliationMatches t := by
  intro s t h
  unfold affiliationMatches
  rw [h]

/-- C8 witness: "pharmaceutical inc" and "PHARMACEUTICAL INC" classify
identically (both match). -/
theorem keyword_matching_case_insensitive_witness :
    strLower "pharmaceutical inc" = strLower "PHARMACEUTICAL INC" ∧
    affiliationMatches "pharmaceutical inc" = affiliationMatches "PHARMACEUTICAL INC" ∧
    affiliationMatches "PHARMACEUTICAL INC" = true := by
  refine ⟨by decide, keyword_matching_case_insensitive _ _ (by decide), by decide⟩

/-- C9: every record emitted by `extract_paper_data` has its
corresponding-author email equal to the constant "Not Available". -/
theorem email_always_not_available :
    ∀ (d : ParsedXml) (p : Paper), p ∈ extract_paper_data d →
      p.correspondingAuthorEmail = "Not Available" := by
  intro d p hp
  obtain ⟨a, -, hpa⟩ := (mem_extract_iff d p).mp hp
  exact (processArticle_ok_some_fields a p hpa).1

/-- C9 witness: the record extracted from `exParsed` carries the placeholder. -/
theorem email_always_not_available_witness :
    exPaper ∈ extract_paper_data exParsed ∧
    exPaper.correspondingAuthorEmail = "Not Available" := by
  have hmem : exPaper ∈ extract_paper_data exParsed := by decide
  exact ⟨hmem, email_always_not_available exParsed exPaper hmem⟩

/-- C10: an article whose `PubDate` has no `Year` and whose `MedlineDate` is
empty or whitespace-only makes `split()[0]` raise, so the article is skipped
and no record is emitted for it. -/
theorem empty_medline_date_article_skipped :
    ∀ (a : PubmedArticle) (mc : MedlineCitation) (info : ArticleInfo) (md : String),
      a.medlineCitation = some mc → mc.article = some info →
      (pubDateFrom info).year = none → (pubDateFrom info).medlineDate = some md →
      pySplit md = [] →
      (∃ msg, processArticle a = Except.error msg) ∧
      extract_paper_data (singletonDoc a) = [] := by
  intro a mc info md h1 h2 hy hm hs
  have hrd : resolveDate (pubDateFrom info) =
      Except.error "IndexError: list index out of range" := by
    simp [resolveDate, hy, hm, hs]
  have herr : ∃ msg, processArticle a = Except.error msg := by
    cases hpm : mc.pmid with
    | none => exact ⟨"KeyError: PMID", by simp [processArticle, h1, hpm]⟩
    | some pmidNode =>
      cases htx : pmidNode.text with
      | none => exact ⟨"KeyError: #text", by simp [processArticle, h1, hpm, htx]⟩
      | some pmid =>
        exact ⟨"IndexError: list index out of range",
          by simp [processArticle, h1, hpm, htx, h2, hrd]⟩
  refine ⟨herr, ?_⟩
  obtain ⟨msg, hmsg⟩ := herr
  simp [extract_paper_data, articlesFrom, singletonDoc, NodeOrList.toList, hmsg]

/-- C10 witness: `exBadDate` (no `Year`, whitespace-only `MedlineDate`) is
skipped even though its author has a keyword-matching affiliation. -/
theorem empty_medline_date_article_skipped_witness :
    (∃ msg, processArticle exBadDate = Except.error msg) ∧
    extract_paper_data (singletonDoc exBadDate) = [] ∧
    specArticleHasNonAcademicAuthor exBadDate = true := by
  have h := empty_medline_date_article_skipped exBadDate exBadDateCitation
    exBadDateInfo " " rfl rfl rfl rfl (by decide)
  exact ⟨h.1, h.2, by decide⟩

/-- C1 counterexample: for the document whose only article lacks a `PMID` key
but has an author with the industry affiliation "Acme Pharma Inc.", the
claimed equivalence "a record appears in the output iff some author has a
matching affiliation" fails: the author matches, yet processing raises on the
missing `PMID` and no record appears. -/
theorem extract_iff_match_counterexample :
    ¬ ((∃ p, p ∈ extract_paper_data exNoPmidParsed) ↔
        specArticleHasNonAcademicAuthor exNoPmid = true) := by
  intro hiff
  obtain ⟨p, hp⟩ := hiff.mpr (by decide)
  have hE : extract_paper_data exNoPmidParsed = [] := by decide
  rw [hE] at hp
  exact List.not_mem_nil p hp

/-- C1 (amended): a record for an input article appears in the output of
`extract_paper_data` iff per-article processing raises no exception and at
least one of the article's authors has at least one affiliation string that
case-insensitively contains a keyword from the fixed list. -/
theorem extract_record_iff_no_error_and_match :
    ∀ (d : ParsedXml) (a : PubmedArticle), a ∈ articlesFrom d →
      ((∃ p, processArticle a = Except.ok (some p) ∧ p ∈ extract_paper_data d) ↔
        ((∀ e, processArticle a ≠ Except.error e) ∧
          specArticleHasNonAcademicAuthor a = true)) := by
  intro d a ha
  constructor
  · rintro ⟨p, hpa, -⟩
    refine ⟨?_, ?_⟩
    · intro e he
      rw [hpa] at he
      exact Except.noConfusion he
    · simpa using processArticle_ok_spec a (some p) hpa
  · rintro ⟨hne, hmatch⟩
    cases hr : processArticle a with
    | error e => exact absurd hr (hne e)
    | ok r =>
      cases r with
      | none =>
        have hspec := processArticle_ok_spec a none hr
        rw [hmatch] at hspec
        simp at hspec
      | some p =>
        exact ⟨p, rfl, (mem_extract_iff d p).mpr ⟨a, ha, hr⟩⟩

/-- C1 (amended) witness: instantiated at the well-formed document `exParsed`
and its article `exArticle`. -/
theorem extract_record_iff_no_error_and_match_witness :
    (∃ p, processArticle exArticle = Except.ok (some p) ∧
        p ∈ extract_paper_data exParsed) ↔
      ((∀ e, processArticle exArticle ≠ Except.error e) ∧
        specArticleHasNonAcademicAuthor exArticle = true) :=
  extract_record_iff_no_error_and_match exParsed exArticle (by decide)

end FetchPubmed
